import Mathlib

/- Verification of the roster logic of src/bot.py (Discord guild teams
   manager with squads).  The stateful sqlite code is shallowly embedded:
   the `events` row for one event becomes `EventRow`, the `rosters` table
   restricted to that event becomes a `List RosterRow` (rows are listed in
   insertion order, mirroring rowid order), SQL SELECT/COUNT become list
   filters and `countP`, UPDATE ... WHERE user_id becomes `update_user`,
   and DELETE becomes `delete_user`.  User mentions interpolated into
   messages by the presentation layer are rendered here as the fixed word
   "User". -/

/-- One row of the `events` table: the capacity configuration and
lifecycle status of a single event (fields not read by the roster logic
are omitted). -/
structure EventRow where
  squad_a_size : Int
  squad_b_size : Int
  squad_a_commander_quota : Int
  squad_b_commander_quota : Int
  backup_size : Int
  teams : Int
  status : String
  team_a_label : Option String
  team_b_label : Option String
deriving Repr, DecidableEq

/-- One row of the `rosters` table for a fixed event: a user's single
enrollment entry.  `squad` is `some "SA"`/`some "SB"` for mains and
`none` (SQL NULL) for backups; `is_commander` is the 0/1 integer column. -/
structure RosterRow where
  user_id : Nat
  team : String
  squad : Option String
  slot_type : String
  is_commander : Int
  joined_at : Int
deriving Repr, DecidableEq

/-- Python's `x or default` on a nullable string column: NULL and the
empty string are falsy. -/
def py_or_str (v : Option String) (dflt : String) : String :=
  match v with
  | none => dflt
  | some s => if s == "" then dflt else s

/-- `team_label` from bot.py: display label of a team with defaults. -/
def team_label (ev : EventRow) (team_code : String) : String :=
  if team_code == "A" then py_or_str ev.team_a_label "Shadowfront Team 1"
  else py_or_str ev.team_b_label "Shadowfront Team 2"

/-- The inline Python expression `'Squad A' if squad=='SA' else 'Squad B'`
applied to a nullable squad column. -/
def squad_display_opt (sq : Option String) : String :=
  if sq == some "SA" then "Squad A" else "Squad B"

/-- The inline Python expression `'Squad A' if squad=='SA' else 'Squad B'`
applied to a squad code string. -/
def squad_display (sq : String) : String :=
  if sq == "SA" then "Squad A" else "Squad B"

/-- `user_enrollment` from bot.py: SELECT * FROM rosters WHERE event_id=?
AND user_id=? (at most one row thanks to the primary key; `find?` returns
the first). -/
def user_enrollment (roster : List RosterRow) (user_id : Nat) : Option RosterRow :=
  roster.find? (fun r => r.user_id == user_id)

/-- The WHERE clause built by `count_mains` in bot.py:
slot_type='main' AND team=? [AND squad=?] [AND is_commander=1]
[AND is_commander=0]. -/
def mains_pred (team : String) (squad : Option String)
    (commanders_only non_commanders_only : Bool) (r : RosterRow) : Bool :=
  r.slot_type == "main" && r.team == team &&
    (match squad with
     | none => true
     | some sq => r.squad == some sq) &&
    (!commanders_only || r.is_commander == 1) &&
    (!non_commanders_only || r.is_commander == 0)

/-- `count_mains` from bot.py: SELECT COUNT(*) with the clause above. -/
def count_mains (roster : List RosterRow) (team : String) (squad : Option String)
    (commanders_only non_commanders_only : Bool) : Nat :=
  roster.countP (mains_pred team squad commanders_only non_commanders_only)

/-- The WHERE clause of `count_backups`: slot_type='backup' AND team=?. -/
def backup_pred (team : String) (r : RosterRow) : Bool :=
  r.slot_type == "backup" && r.team == team

/-- `count_backups` from bot.py. -/
def count_backups (roster : List RosterRow) (team : String) : Nat :=
  roster.countP (backup_pred team)

/-- `get_team_counts` from bot.py:
(commanders_sa, mains_sa, commanders_sb, mains_sb, backups). -/
def get_team_counts (roster : List RosterRow) (team : String) :
    Nat × Nat × Nat × Nat × Nat :=
  (count_mains roster team (some "SA") true false,
   count_mains roster team (some "SA") false true,
   count_mains roster team (some "SB") true false,
   count_mains roster team (some "SB") false true,
   count_backups roster team)

/-- `non_commander_cap` from bot.py: max(0, squad size - commander
quota) for the given squad code (any code other than "SA" selects the
Squad B columns, as in the source's if/else). -/
def non_commander_cap (ev : EventRow) (squad_code : String) : Int :=
  if squad_code == "SA" then max 0 (ev.squad_a_size - ev.squad_a_commander_quota)
  else max 0 (ev.squad_b_size - ev.squad_b_commander_quota)

/-- The per-squad commander quota column read by `event_setcommander`
(Squad B column for any code other than "SA", mirroring the if/else). -/
def squad_commander_quota (ev : EventRow) (squad_code : String) : Int :=
  if squad_code == "SA" then ev.squad_a_commander_quota else ev.squad_b_commander_quota

/-- The closure `can_join_non_cmd` inside `add_participant`. -/
def can_join_non_cmd (ev : EventRow) (roster : List RosterRow) (team target_squad : String) : Bool :=
  decide ((count_mains roster team (some target_squad) false true : Int)
    < non_commander_cap ev target_squad)

/-- A row inserted by the join flow (INSERT with is_commander=0). -/
def new_row (user_id : Nat) (team : String) (squad : Option String)
    (slot_type : String) (joined_at : Int) : RosterRow :=
  { user_id := user_id, team := team, squad := squad, slot_type := slot_type,
    is_commander := 0, joined_at := joined_at }

/-- SQL `UPDATE rosters SET ... WHERE event_id=? AND user_id=?`: apply `f`
to every row whose user_id matches. -/
def update_user (roster : List RosterRow) (uid : Nat) (f : RosterRow → RosterRow) :
    List RosterRow :=
  roster.map (fun r => if r.user_id == uid then f r else r)

/-- SQL `DELETE FROM rosters WHERE event_id=? AND user_id=?`. -/
def delete_user (roster : List RosterRow) (uid : Nat) : List RosterRow :=
  roster.filter (fun r => r.user_id != uid)

/-- The tail of `add_participant` for the no-squad-requested case:
try Squad A, then Squad B, then backup (`backups` is the count read from
`get_team_counts` before this point). -/
def add_auto_join (ev : EventRow) (roster : List RosterRow) (user_id : Nat)
    (team : String) (backups : Nat) (now : Int) : (String × String) × List RosterRow :=
  if can_join_non_cmd ev roster team "SA" then
    (("main", "joined"), roster ++ [new_row user_id team (some "SA") "main" now])
  else if can_join_non_cmd ev roster team "SB" then
    (("main", "joined"), roster ++ [new_row user_id team (some "SB") "main" now])
  else if (backups : Int) < ev.backup_size then
    (("backup", "joined"), roster ++ [new_row user_id team none "backup" now])
  else
    (("", team_label ev team ++ " is full (mains and backups)."), roster)

/-- `add_participant` from bot.py: the join flow.  Returns the
(slot_type, note) pair of the source together with the resulting roster;
`now` stands for `int(time.time())`. -/
def add_participant (ev : EventRow) (roster : List RosterRow) (user_id : Nat)
    (team : String) (squad : Option String) (force_backup : Bool) (now : Int) :
    (String × String) × List RosterRow :=
  if ev.status != "open" then
    (("", "This event is currently locked. Ask a manager to /event_unlock."), roster)
  else
    match user_enrollment roster user_id with
    | some existing =>
        if existing.team == team then
          ((existing.slot_type,
            if existing.slot_type == "main" then
              "You are already on " ++ team_label ev team ++ " — " ++
                squad_display_opt existing.squad ++ "."
            else
              "You are already on " ++ team_label ev team ++ " (backup)."), roster)
        else
          (("", "You are already registered on " ++ team_label ev existing.team ++
            ". Leave first with /leave."), roster)
    | none =>
        let backups := (get_team_counts roster team).2.2.2.2
        if force_backup then
          if (backups : Int) < ev.backup_size then
            (("backup", "joined"), roster ++ [new_row user_id team none "backup" now])
          else
            (("", team_label ev team ++ " backups are full."), roster)
        else
          match squad with
          | some sq =>
              if sq == "SA" || sq == "SB" then
                if can_join_non_cmd ev roster team sq then
                  (("main", "joined"), roster ++ [new_row user_id team (some sq) "main" now])
                else if (backups : Int) < ev.backup_size then
                  (("backup", "joined"), roster ++ [new_row user_id team none "backup" now])
                else
                  (("", team_label ev team ++ " is full (chosen squad mains and backups)."), roster)
              else
                add_auto_join ev roster user_id team backups now
          | none => add_auto_join ev roster user_id team backups now

/-- One step of the SQL `ORDER BY joined_at ASC LIMIT 1` selection:
keep the row with the smaller joined_at, the earlier-inserted row on
ties. -/
def promote_step (acc : Option RosterRow) (r : RosterRow) : Option RosterRow :=
  match acc with
  | none => some r
  | some b => if r.joined_at < b.joined_at then some r else some b

/-- The SELECT of `promote_one_non_commander`: the team's backup row
with the smallest joined_at (earliest-inserted on ties). -/
def min_backup (roster : List RosterRow) (team : String) : Option RosterRow :=
  (roster.filter (backup_pred team)).foldl promote_step none

/-- The column assignments of the promotion UPDATE:
slot_type='main', is_commander=0, squad=?. -/
def promote_update (squad : String) (r : RosterRow) : RosterRow :=
  { r with slot_type := "main", is_commander := 0, squad := some squad }

/-- `promote_one_non_commander` from bot.py: FIFO promotion of one team
backup into a squad, or `none` when the squad is at capacity or no
backup exists. -/
def promote_one_non_commander (ev : EventRow) (roster : List RosterRow)
    (team squad : String) : Option Nat × List RosterRow :=
  if (count_mains roster team (some squad) false true : Int) ≥ non_commander_cap ev squad then
    (none, roster)
  else
    match min_backup roster team with
    | none => (none, roster)
    | some row => (some row.user_id, update_user roster row.user_id (promote_update squad))

/-- The trigger condition shared by `/leave` and the Leave button:
prior["slot_type"] == "main" and prior["is_commander"] == 0 and
prior["squad"] in ("SA","SB"). -/
def leave_triggers_promotion (prior : RosterRow) : Bool :=
  prior.slot_type == "main" && prior.is_commander == 0 &&
    (prior.squad == some "SA" || prior.squad == some "SB")

/-- The core of the `/leave` command and of `RosterView._leave_common`:
look up the caller's row, delete it, and — when it was a non-commander
main in a squad — run the promotion engine on its team and squad.
Returns ((removed row, promoted user), resulting roster).  (The guard
ensures `prior.squad` is `some "SA"`/`some "SB"`, so `getD` never
supplies its default.) -/
def leave_op (ev : EventRow) (roster : List RosterRow) (user_id : Nat) :
    (Option RosterRow × Option Nat) × List RosterRow :=
  match user_enrollment roster user_id with
  | none => ((none, none), roster)
  | some prior =>
      let remaining := delete_user roster user_id
      if leave_triggers_promotion prior then
        let res := promote_one_non_commander ev remaining prior.team (prior.squad.getD "SA")
        ((some prior, res.1), res.2)
      else
        ((some prior, none), remaining)

/-- Outcome of a commander-management command: `reject` is an early
return via an ephemeral message before any write, `ok` is the `action`
message of a completed mutation. -/
inductive CmdOutcome where
  | reject (msg : String)
  | ok (msg : String)
deriving Repr, DecidableEq

/-- The part of `event_setcommander` after the two capacity gates:
branch on the target user's existing enrollment and mutate or insert. -/
def setcommander_apply (ev : EventRow) (roster : List RosterRow) (user_id : Nat)
    (team squad : String) (now : Int) : CmdOutcome × List RosterRow :=
  match user_enrollment roster user_id with
  | some existing =>
      if existing.team != team then
        (.reject ("User is registered on " ++ team_label ev existing.team ++
          ". Ask them to /leave first."), roster)
      else if existing.slot_type == "backup" then
        (.ok ("Promoted User from backup to commander on " ++ team_label ev team ++
          " — " ++ squad_display squad ++ "."),
         update_user roster user_id
           (fun r => { r with slot_type := "main", squad := some squad, is_commander := 1 }))
      else if existing.is_commander == 1 && existing.squad == some squad then
        (.reject ("User is already a commander on " ++ team_label ev team ++
          " — " ++ squad_display squad ++ "."), roster)
      else
        (.ok ("Set User as commander on " ++ team_label ev team ++
          " — " ++ squad_display squad ++ "."),
         update_user roster user_id
           (fun r => { r with is_commander := 1, squad := some squad }))
  | none =>
      (.ok ("Added User as commander on " ++ team_label ev team ++
        " — " ++ squad_display squad ++ "."),
       roster ++ [{ user_id := user_id, team := team, squad := some squad,
                    slot_type := "main", is_commander := 1, joined_at := now }])

/-- The quota rejection message of `event_setcommander` for Squad A. -/
def setcmd_quota_msg_a (ev : EventRow) (team : String) : String :=
  team_label ev team ++ " — Squad A already has the maximum of " ++
    toString ev.squad_a_commander_quota ++ " commanders."

/-- The quota rejection message of `event_setcommander` for Squad B. -/
def setcmd_quota_msg_b (ev : EventRow) (team : String) : String :=
  team_label ev team ++ " — Squad B already has the maximum of " ++
    toString ev.squad_b_commander_quota ++ " commanders."

/-- The full-capacity rejection message of `event_setcommander` for Squad A. -/
def setcmd_full_msg_a (ev : EventRow) (team : String) : String :=
  team_label ev team ++ " — Squad A is at full capacity (" ++
    toString ev.squad_a_size ++ ")."

/-- The full-capacity rejection message of `event_setcommander` for Squad B. -/
def setcmd_full_msg_b (ev : EventRow) (team : String) : String :=
  team_label ev team ++ " — Squad B is at full capacity (" ++
    toString ev.squad_b_size ++ ")."

/-- The roster core of the `/event_setcommander` command (after the
event lookup and manager permission checks of the presentation layer):
per-squad commander-quota gate, then squad-occupancy gate, then the
enrollment-dependent mutation. -/
def event_setcommander (ev : EventRow) (roster : List RosterRow) (user_id : Nat)
    (team squad : String) (now : Int) : CmdOutcome × List RosterRow :=
  let counts := get_team_counts roster team
  if squad == "SA" then
    if (counts.1 : Int) ≥ ev.squad_a_commander_quota then
      (.reject (setcmd_quota_msg_a ev team), roster)
    else if ((counts.1 : Int) + (counts.2.1 : Int)) ≥ ev.squad_a_size then
      (.reject (setcmd_full_msg_a ev team), roster)
    else setcommander_apply ev roster user_id team squad now
  else
    if (counts.2.2.1 : Int) ≥ ev.squad_b_commander_quota then
      (.reject (setcmd_quota_msg_b ev team), roster)
    else if ((counts.2.2.1 : Int) + (counts.2.2.2.1 : Int)) ≥ ev.squad_b_size then
      (.reject (setcmd_full_msg_b ev team), roster)
    else setcommander_apply ev roster user_id team squad now

/-- The roster core of the `/event_unsetcommander` command (after the
event lookup and manager permission checks of the presentation layer). -/
def event_unsetcommander (ev : EventRow) (roster : List RosterRow) (user_id : Nat)
    (team : String) (demote_if_needed : Bool) : CmdOutcome × List RosterRow :=
  match user_enrollment roster user_id with
  | none =>
      (.reject ("User is not a main commander on " ++ team_label ev team ++ "."), roster)
  | some existing =>
      if existing.team != team || existing.is_commander != 1 || existing.slot_type != "main" then
        (.reject ("User is not a main commander on " ++ team_label ev team ++ "."), roster)
      else
        let squad := py_or_str existing.squad "SA"
        let current_non_cmd := count_mains roster team (some squad) false true
        if (current_non_cmd : Int) + 1 ≤ non_commander_cap ev squad then
          (.ok ("Unset commander: User is now a normal main on " ++ team_label ev team ++
            " — " ++ squad_display squad ++ "."),
           update_user roster user_id (fun r => { r with is_commander := 0 }))
        else if demote_if_needed then
          if (count_backups roster team : Int) < ev.backup_size then
            (.ok ("Unset commander and demoted to backup (squad mains were full) for User on " ++
              team_label ev team ++ "."),
             update_user roster user_id
               (fun r => { r with is_commander := 0, squad := none, slot_type := "backup" }))
          else
            (.reject ("Cannot unset: squad non-commander mains are full and backups are " ++
              "also full. Free a slot or disable demote_if_needed."), roster)
        else
          (.reject ("Cannot unset: squad non-commander mains are full. Enable " ++
            "demote_if_needed or free a main slot."), roster)

/-- `reset_event_roster` from bot.py: delete every roster row of the
event and force the status back to 'open'. -/
def reset_event_roster (ev : EventRow) (_roster : List RosterRow) :
    EventRow × List RosterRow :=
  ({ ev with status := "open" }, [])

/-- The `/join` slash command builds `requested_squad = squad if squad in
("SA","SB") else None` and calls `add_participant` with force_backup
False; `squad_param` is the command's `squad` argument after the
`SquadChoice` transformer. -/
def join_command (ev : EventRow) (roster : List RosterRow) (user_id : Nat)
    (team : String) (squad_param : String) (now : Int) :
    (String × String) × List RosterRow :=
  let requested_squad := if squad_param == "SA" || squad_param == "SB"
    then some squad_param else none
  add_participant ev roster user_id team requested_squad false now

/-- The declared default of the `/join` command's `squad` parameter
(`squad: app_commands.Transform[str, SquadChoice] = "SA"`). -/
def join_command_default_squad : String := "SA"

/-- `RosterView._join_auto` (Join button): always calls
`add_participant` with squad=None and force_backup=False. -/
def roster_view_join_auto (ev : EventRow) (roster : List RosterRow) (user_id : Nat)
    (team : String) (now : Int) : (String × String) × List RosterRow :=
  add_participant ev roster user_id team none false now

/-- The externally triggered roster operations (the presentation layer's
permission and event-existence checks, which touch no roster state, are
elided). -/
inductive Op where
  | joinReq (user_id : Nat) (team : String) (squad : Option String)
      (force_backup : Bool) (now : Int)
  | leaveReq (user_id : Nat)
  | promoteReq (team squad : String)
  | setCommanderReq (user_id : Nat) (team squad : String) (now : Int)
  | unsetCommanderReq (user_id : Nat) (team : String) (demote_if_needed : Bool)
  | lockReq
  | unlockReq
  | resetReq
deriving Repr, DecidableEq

/-- Effect of one completed operation on the event row and its roster. -/
def apply_op (ev : EventRow) (roster : List RosterRow) : Op → EventRow × List RosterRow
  | .joinReq uid team squad fb now => (ev, (add_participant ev roster uid team squad fb now).2)
  | .leaveReq uid => (ev, (leave_op ev roster uid).2)
  | .promoteReq team squad => (ev, (promote_one_non_commander ev roster team squad).2)
  | .setCommanderReq uid team squad now =>
      (ev, (event_setcommander ev roster uid team squad now).2)
  | .unsetCommanderReq uid team demote =>
      (ev, (event_unsetcommander ev roster uid team demote).2)
  | .lockReq => ({ ev with status := "locked" }, roster)
  | .unlockReq => ({ ev with status := "open" }, roster)
  | .resetReq => reset_event_roster ev roster

/-- Run a sequence of operations from a starting state. -/
def run_ops (ev : EventRow) (roster : List RosterRow) (ops : List Op) :
    EventRow × List RosterRow :=
  ops.foldl (fun s op => apply_op s.1 s.2 op) (ev, roster)

/-- The uniqueness invariant: at most one roster row per user (the
PRIMARY KEY(event_id, user_id) of the `rosters` table, restricted to one
event). -/
def users_unique (roster : List RosterRow) : Prop :=
  (roster.map RosterRow.user_id).Nodup

/-- The capacity invariant of the spec: per team and squad, the
non-commander main count is within `non_commander_cap` and the commander
count is within the squad's commander quota. -/
def capacity_invariant (ev : EventRow) (roster : List RosterRow) : Prop :=
  ∀ team squad : String, squad = "SA" ∨ squad = "SB" →
    (count_mains roster team (some squad) false true : Int) ≤ non_commander_cap ev squad ∧
    (count_mains roster team (some squad) true false : Int) ≤ squad_commander_quota ev squad

/-- Combined inductive invariant used to verify the capacity claim:
nonnegative commander quotas, roster uniqueness, and the capacity
bounds. -/
def good_state (ev : EventRow) (roster : List RosterRow) : Prop :=
  0 ≤ ev.squad_a_commander_quota ∧ 0 ≤ ev.squad_b_commander_quota ∧
    users_unique roster ∧ capacity_invariant ev roster

/-- A concrete event with the source's default configuration (Squad A 15
with 2 commanders, Squad B 5 with 1 commander, 10 backups per team). -/
def sample_event : EventRow :=
  { squad_a_size := 15, squad_b_size := 5, squad_a_commander_quota := 2,
    squad_b_commander_quota := 1, backup_size := 10, teams := 2,
    status := "open", team_a_label := none, team_b_label := none }

/-- `sample_event` after `/event_lock`. -/
def locked_event : EventRow := { sample_event with status := "locked" }

/-- A roster holding one non-commander Squad-A main (user 1). -/
def sample_roster : List RosterRow :=
  [{ user_id := 1, team := "A", squad := some "SA", slot_type := "main",
     is_commander := 0, joined_at := 50 }]

/-- A mixed sequence of operations used to exercise the invariants. -/
def sample_ops : List Op :=
  [Op.joinReq 1 "A" none false 100, Op.joinReq 2 "A" (some "SB") false 101,
   Op.joinReq 3 "A" none true 102, Op.setCommanderReq 4 "A" "SA" 103,
   Op.leaveReq 1, Op.promoteReq "A" "SA",
   Op.unsetCommanderReq 4 "A" true, Op.resetReq]

/-- Event of the FIFO promotion scenario: Squad A has two free
non-commander slots. -/
def fifo_event : EventRow :=
  { squad_a_size := 2, squad_b_size := 1, squad_a_commander_quota := 0,
    squad_b_commander_quota := 0, backup_size := 10, teams := 2,
    status := "open", team_a_label := none, team_b_label := none }

/-- Two backups B1 (user 1, joined_at 100) and B2 (user 2, joined_at 200)
on team A. -/
def fifo_roster : List RosterRow :=
  [{ user_id := 1, team := "A", squad := none, slot_type := "backup",
     is_commander := 0, joined_at := 100 },
   { user_id := 2, team := "A", squad := none, slot_type := "backup",
     is_commander := 0, joined_at := 200 }]

/-- Event with Squad A capacity 1 (size 1, quota 0) and Squad B capacity 5:
Squad A can fill up while Squad B stays wide open. -/
def c5_event : EventRow :=
  { squad_a_size := 1, squad_b_size := 5, squad_a_commander_quota := 0,
    squad_b_commander_quota := 0, backup_size := 10, teams := 2,
    status := "open", team_a_label := none, team_b_label := none }

/-- One non-commander main filling Squad A of team A of `c5_event`. -/
def c5_roster : List RosterRow :=
  [{ user_id := 1, team := "A", squad := some "SA", slot_type := "main",
     is_commander := 0, joined_at := 10 }]

/-- A non-commander Squad-A main (user 1) together with one team backup
(user 2). -/
def c7_roster : List RosterRow :=
  [{ user_id := 1, team := "A", squad := some "SA", slot_type := "main",
     is_commander := 0, joined_at := 10 },
   { user_id := 2, team := "A", squad := none, slot_type := "backup",
     is_commander := 0, joined_at := 100 }]

/-- The roster row of user 1 in `c7_roster`. -/
def c7_prior : RosterRow :=
  { user_id := 1, team := "A", squad := some "SA", slot_type := "main",
    is_commander := 0, joined_at := 10 }

/-- A roster holding one main commander (user 5) on team A, Squad A. -/
def c9_roster : List RosterRow :=
  [{ user_id := 5, team := "A", squad := some "SA", slot_type := "main",
     is_commander := 1, joined_at := 10 }]

/- ------------------------------------------------------------------ -/
/- Helper lemmas about the embedded store operations                   -/
/- ------------------------------------------------------------------ -/

theorem user_enrollment_mem {r : List RosterRow} {uid : Nat} {e : RosterRow}
    (h : user_enrollment r uid = some e) : e ∈ r ∧ e.user_id = uid := by
  refine ⟨List.mem_of_find?_eq_some h, ?_⟩
  have := List.find?_some h
  simpa using this

theorem user_enrollment_none {r : List RosterRow} {uid : Nat}
    (h : user_enrollment r uid = none) : ∀ x ∈ r, x.user_id ≠ uid := by
  intro x hx
  have := List.find?_eq_none.mp h x hx
  simpa using this

theorem update_user_not_mem (t : List RosterRow) (uid : Nat) (f : RosterRow → RosterRow)
    (h : ∀ r ∈ t, r.user_id ≠ uid) : update_user t uid f = t := by
  unfold update_user
  conv_rhs => rw [← List.map_id t]
  apply List.map_congr_left
  intro a ha
  simp [h a ha]

theorem countP_update_user (p : RosterRow → Bool) (f : RosterRow → RosterRow) :
    ∀ (r : List RosterRow) (e : RosterRow), users_unique r → e ∈ r →
      (update_user r e.user_id f).countP p + (if p e then 1 else 0)
        = r.countP p + (if p (f e) then 1 else 0) := by
  intro r
  induction r with
  | nil => intro e _ he; cases he
  | cons x t ih =>
      intro e hu he
      have hu' : x.user_id ∉ t.map RosterRow.user_id ∧ users_unique t := by
        simpa [users_unique, List.nodup_cons] using hu
      rcases List.mem_cons.mp he with rfl | het
      · have htail : update_user t e.user_id f = t := by
          apply update_user_not_mem
          intro a ha hax
          exact hu'.1 (hax ▸ List.mem_map_of_mem RosterRow.user_id ha)
        have hhead : update_user (e :: t) e.user_id f = f e :: t := by
          simp [update_user] at htail ⊢
          exact htail
        rw [hhead, List.countP_cons, List.countP_cons]
        omega
      · have hne : x.user_id ≠ e.user_id := by
          intro hx
          exact hu'.1 (hx ▸ List.mem_map_of_mem RosterRow.user_id het)
        have hhead : update_user (x :: t) e.user_id f = x :: update_user t e.user_id f := by
          simp [update_user, hne]
        rw [hhead, List.countP_cons, List.countP_cons]
        have := ih e hu'.2 het
        omega

theorem users_unique_nil : users_unique [] := by simp [users_unique]

theorem users_unique_append {r : List RosterRow} {row : RosterRow}
    (hu : users_unique r) (h : ∀ x ∈ r, x.user_id ≠ row.user_id) :
    users_unique (r ++ [row]) := by
  have hnotin : row.user_id ∉ r.map RosterRow.user_id := by
    intro hmem
    obtain ⟨x, hx, hxe⟩ := List.mem_map.mp hmem
    exact h x hx hxe
  simpa [users_unique, List.nodup_append] using And.intro hu hnotin

theorem users_unique_delete {r : List RosterRow} (uid : Nat) (hu : users_unique r) :
    users_unique (delete_user r uid) := by
  apply List.Nodup.sublist _ hu
  exact List.Sublist.map RosterRow.user_id (List.filter_sublist r)

theorem users_unique_update {r : List RosterRow} (uid : Nat) (f : RosterRow → RosterRow)
    (hf : ∀ x, (f x).user_id = x.user_id) (hu : users_unique r) :
    users_unique (update_user r uid f) := by
  have hmap : (update_user r uid f).map RosterRow.user_id = r.map RosterRow.user_id := by
    unfold update_user
    rw [List.map_map]
    apply List.map_congr_left
    intro a _
    by_cases h : a.user_id = uid <;> simp [h, hf]
  simpa [users_unique, hmap] using hu

theorem foldl_promote_step_mem :
    ∀ (l : List RosterRow) (acc : Option RosterRow) (e : RosterRow),
      l.foldl promote_step acc = some e → acc = some e ∨ e ∈ l := by
  intro l
  induction l with
  | nil => intro acc e h; exact Or.inl h
  | cons x t ih =>
      intro acc e h
      rcases ih (promote_step acc x) e h with hstep | hmem
      · match acc, hstep with
        | none, hstep => exact Or.inr (List.mem_cons.mpr (Or.inl (by simpa [promote_step] using hstep.symm)))
        | some b, hstep =>
            simp only [promote_step] at hstep
            by_cases hlt : x.joined_at < b.joined_at
            · simp [hlt] at hstep
              exact Or.inr (List.mem_cons.mpr (Or.inl hstep.symm))
            · simp [hlt] at hstep
              exact Or.inl (by rw [hstep])
      · exact Or.inr (List.mem_cons.mpr (Or.inr hmem))

theorem foldl_promote_step_min :
    ∀ (l : List RosterRow) (acc : Option RosterRow) (e : RosterRow),
      l.foldl promote_step acc = some e →
      (∀ b ∈ l, e.joined_at ≤ b.joined_at) ∧
        (∀ a, acc = some a → e.joined_at ≤ a.joined_at) := by
  intro l
  induction l with
  | nil =>
      intro acc e h
      refine ⟨?_, ?_⟩
      · intro b hb; cases hb
      · intro a ha
        simp only [List.foldl_nil] at h
        rw [ha] at h
        simp_all
  | cons x t ih =>
      intro acc e h
      have hstep := ih (promote_step acc x) e h
      have hx : e.joined_at ≤ x.joined_at := by
        cases acc with
        | none => exact hstep.2 x rfl
        | some b =>
            by_cases hlt : x.joined_at < b.joined_at
            · exact hstep.2 _ (by simp [promote_step, hlt])
            · have := hstep.2 b (by simp [promote_step, hlt])
              omega
      refine ⟨?_, ?_⟩
      · intro b hb
        rcases List.mem_cons.mp hb with rfl | hbt
        · exact hx
        · exact hstep.1 b hbt
      · intro a ha
        cases acc with
        | none => cases ha
        | some b =>
            have hba : b = a := by
              simpa using ha
            subst hba
            by_cases hlt : x.joined_at < b.joined_at
            · have h1 := hstep.2 x (by simp [promote_step, hlt])
              omega
            · exact hstep.2 b (by simp [promote_step, hlt])

theorem min_backup_mem {r : List RosterRow} {team : String} {e : RosterRow}
    (h : min_backup r team = some e) : e ∈ r ∧ backup_pred team e = true := by
  unfold min_backup at h
  rcases foldl_promote_step_mem _ _ _ h with hacc | hmem
  · cases hacc
  · exact ⟨List.mem_of_mem_filter hmem, List.of_mem_filter hmem⟩

theorem min_backup_min {r : List RosterRow} {team : String} {e : RosterRow}
    (h : min_backup r team = some e) :
    ∀ b ∈ r, backup_pred team b = true → e.joined_at ≤ b.joined_at := by
  intro b hb hpred
  unfold min_backup at h
  exact (foldl_promote_step_min _ _ _ h).1 b (List.mem_filter.mpr ⟨hb, hpred⟩)

theorem min_backup_eq_none {r : List RosterRow} {team : String}
    (h : ∀ b ∈ r, backup_pred team b = false) : min_backup r team = none := by
  unfold min_backup
  rw [List.filter_eq_nil_iff.mpr (by intro a ha; simp [h a ha])]
  rfl

theorem capacity_invariant_append (ev : EventRow) (r : List RosterRow) (row : RosterRow)
    (hcap : capacity_invariant ev r)
    (hrow : ∀ t s : String, s = "SA" ∨ s = "SB" →
      (mains_pred t (some s) false true row = true →
        (count_mains r t (some s) false true : Int) + 1 ≤ non_commander_cap ev s) ∧
      (mains_pred t (some s) true false row = true →
        (count_mains r t (some s) true false : Int) + 1 ≤ squad_commander_quota ev s)) :
    capacity_invariant ev (r ++ [row]) := by
  intro t s hs
  have h1 := hcap t s hs
  have h2 := hrow t s hs
  have ha1 : count_mains (r ++ [row]) t (some s) false true
      = count_mains r t (some s) false true
        + (if mains_pred t (some s) false true row then 1 else 0) := by
    simp [count_mains, List.countP_append, List.countP_cons]
  have ha2 : count_mains (r ++ [row]) t (some s) true false
      = count_mains r t (some s) true false
        + (if mains_pred t (some s) true false row then 1 else 0) := by
    simp [count_mains, List.countP_append, List.countP_cons]
  refine ⟨?_, ?_⟩
  · rw [ha1]
    cases hb : mains_pred t (some s) false true row with
    | false => simpa using h1.1
    | true =>
        have := h2.1 hb
        simp only [if_pos rfl]
        push_cast
        omega
  · rw [ha2]
    cases hb : mains_pred t (some s) true false row with
    | false => simpa using h1.2
    | true =>
        have := h2.2 hb
        simp only [if_pos rfl]
        push_cast
        omega

theorem capacity_invariant_update (ev : EventRow) (r : List RosterRow) (e : RosterRow)
    (f : RosterRow → RosterRow)
    (hu : users_unique r) (he : e ∈ r)
    (hcap : capacity_invariant ev r)
    (hrow : ∀ t s : String, s = "SA" ∨ s = "SB" →
      (mains_pred t (some s) false true (f e) = true →
        mains_pred t (some s) false true e = true ∨
        (count_mains r t (some s) false true : Int) + 1 ≤ non_commander_cap ev s) ∧
      (mains_pred t (some s) true false (f e) = true →
        mains_pred t (some s) true false e = true ∨
        (count_mains r t (some s) true false : Int) + 1 ≤ squad_commander_quota ev s)) :
    capacity_invariant ev (update_user r e.user_id f) := by
  intro t s hs
  have h1 := hcap t s hs
  have h2 := hrow t s hs
  have e1 := countP_update_user (mains_pred t (some s) false true) f r e hu he
  have e2 := countP_update_user (mains_pred t (some s) true false) f r e hu he
  rw [show (update_user r e.user_id f).countP (mains_pred t (some s) false true)
      = count_mains (update_user r e.user_id f) t (some s) false true from rfl] at e1
  rw [show (update_user r e.user_id f).countP (mains_pred t (some s) true false)
      = count_mains (update_user r e.user_id f) t (some s) true false from rfl] at e2
  rw [show r.countP (mains_pred t (some s) false true)
      = count_mains r t (some s) false true from rfl] at e1
  rw [show r.countP (mains_pred t (some s) true false)
      = count_mains r t (some s) true false from rfl] at e2
  refine ⟨?_, ?_⟩
  · cases hfe : mains_pred t (some s) false true (f e) with
    | false =>
        simp only [hfe, if_neg Bool.false_ne_true] at e1
        cases hpe : mains_pred t (some s) false true e <;>
          simp only [hpe] at e1 <;> simp at e1 <;> omega
    | true =>
        rcases h2.1 hfe with hpe | hbound
        · simp only [hfe, hpe, if_pos rfl] at e1
          omega
        · cases hpe : mains_pred t (some s) false true e <;>
            simp only [hfe, hpe] at e1 <;> simp at e1 <;> omega
  · cases hfe : mains_pred t (some s) true false (f e) with
    | false =>
        simp only [hfe, if_neg Bool.false_ne_true] at e2
        cases hpe : mains_pred t (some s) true false e <;>
          simp only [hpe] at e2 <;> simp at e2 <;> omega
    | true =>
        rcases h2.2 hfe with hpe | hbound
        · simp only [hfe, hpe, if_pos rfl] at e2
          omega
        · cases hpe : mains_pred t (some s) true false e <;>
            simp only [hfe, hpe] at e2 <;> simp at e2 <;> omega

theorem capacity_invariant_delete (ev : EventRow) (r : List RosterRow) (uid : Nat)
    (hcap : capacity_invariant ev r) : capacity_invariant ev (delete_user r uid) := by
  intro t s hs
  have h1 := hcap t s hs
  have hle1 : count_mains (delete_user r uid) t (some s) false true
      ≤ count_mains r t (some s) false true :=
    List.Sublist.countP_le _ (List.filter_sublist r)
  have hle2 : count_mains (delete_user r uid) t (some s) true false
      ≤ count_mains r t (some s) true false :=
    List.Sublist.countP_le _ (List.filter_sublist r)
  constructor <;> omega

theorem good_state_append_backup (ev : EventRow) (r : List RosterRow) (uid : Nat)
    (team : String) (now : Int)
    (hg : good_state ev r) (hnotin : ∀ x ∈ r, x.user_id ≠ uid) :
    good_state ev (r ++ [new_row uid team none "backup" now]) := by
  obtain ⟨hqa, hqb, hu, hcap⟩ := hg
  refine ⟨hqa, hqb, users_unique_append hu ?_, capacity_invariant_append ev r _ hcap ?_⟩
  · intro x hx
    simpa [new_row] using hnotin x hx
  · intro t s hs
    constructor <;> intro hp <;> simp [mains_pred, new_row] at hp

theorem good_state_append_main (ev : EventRow) (r : List RosterRow) (uid : Nat)
    (team sq : String) (now : Int)
    (hg : good_state ev r) (hcan : can_join_non_cmd ev r team sq = true)
    (hnotin : ∀ x ∈ r, x.user_id ≠ uid) :
    good_state ev (r ++ [new_row uid team (some sq) "main" now]) := by
  obtain ⟨hqa, hqb, hu, hcap⟩ := hg
  have hlt : (count_mains r team (some sq) false true : Int) < non_commander_cap ev sq := by
    simpa [can_join_non_cmd] using hcan
  refine ⟨hqa, hqb, users_unique_append hu ?_, capacity_invariant_append ev r _ hcap ?_⟩
  · intro x hx
    simpa [new_row] using hnotin x hx
  · intro t s hs
    constructor <;> intro hp
    · have hts : team = t ∧ sq = s := by simpa [mains_pred, new_row] using hp
      obtain ⟨rfl, rfl⟩ := hts
      omega
    · simp [mains_pred, new_row] at hp

theorem good_state_append_commander (ev : EventRow) (r : List RosterRow) (uid : Nat)
    (team squad : String) (now : Int)
    (hg : good_state ev r)
    (hq : squad = "SA" ∨ squad = "SB" →
      (count_mains r team (some squad) true false : Int) < squad_commander_quota ev squad)
    (hnotin : ∀ x ∈ r, x.user_id ≠ uid) :
    good_state ev (r ++ [{ user_id := uid, team := team, squad := some squad,
                           slot_type := "main", is_commander := 1,
                           joined_at := now }]) := by
  obtain ⟨hqa, hqb, hu, hcap⟩ := hg
  refine ⟨hqa, hqb, users_unique_append hu ?_, capacity_invariant_append ev r _ hcap ?_⟩
  · intro x hx
    simpa using hnotin x hx
  · intro t s hs
    constructor <;> intro hp
    · simp [mains_pred] at hp
    · have hts : team = t ∧ squad = s := by simpa [mains_pred] using hp
      obtain ⟨rfl, rfl⟩ := hts
      have := hq hs
      omega

theorem good_state_add_auto_join (ev : EventRow) (r : List RosterRow) (uid : Nat)
    (team : String) (backups : Nat) (now : Int)
    (hg : good_state ev r) (hnotin : ∀ x ∈ r, x.user_id ≠ uid) :
    good_state ev (add_auto_join ev r uid team backups now).2 := by
  unfold add_auto_join
  split
  · next hcan => exact good_state_append_main ev r uid team "SA" now hg hcan hnotin
  · split
    · next hcan => exact good_state_append_main ev r uid team "SB" now hg hcan hnotin
    · split
      · exact good_state_append_backup ev r uid team now hg hnotin
      · exact hg

theorem good_state_add_participant (ev : EventRow) (r : List RosterRow) (uid : Nat)
    (team : String) (squad : Option String) (fb : Bool) (now : Int)
    (hg : good_state ev r) :
    good_state ev (add_participant ev r uid team squad fb now).2 := by
  unfold add_participant
  split
  · exact hg
  · split
    · split <;> exact hg
    · next hnone =>
        have hnotin := user_enrollment_none hnone
        dsimp only
        split
        · split
          · exact good_state_append_backup ev r uid team now hg hnotin
          · exact hg
        · split
          · next sq =>
              split
              · split
                · next hcan =>
                    exact good_state_append_main ev r uid team sq now hg hcan hnotin
                · split
                  · exact good_state_append_backup ev r uid team now hg hnotin
                  · exact hg
              · exact good_state_add_auto_join ev r uid team _ now hg hnotin
          · exact good_state_add_auto_join ev r uid team _ now hg hnotin

theorem good_state_promote (ev : EventRow) (r : List RosterRow) (team squad : String)
    (hg : good_state ev r) :
    good_state ev (promote_one_non_commander ev r team squad).2 := by
  obtain ⟨hqa, hqb, hu, hcap⟩ := hg
  unfold promote_one_non_commander
  split
  · exact ⟨hqa, hqb, hu, hcap⟩
  · next hcnt =>
      split
      · exact ⟨hqa, hqb, hu, hcap⟩
      · next row hsel =>
          obtain ⟨hmem, hpred⟩ := min_backup_mem hsel
          have hbp : row.slot_type = "backup" ∧ row.team = team := by
            simpa [backup_pred] using hpred
          refine ⟨hqa, hqb,
            users_unique_update row.user_id _ (fun x => rfl) hu,
            capacity_invariant_update ev r row _ hu hmem hcap ?_⟩
          intro t s hs
          constructor
          · intro hfe
            right
            have hts : row.team = t ∧ squad = s := by
              simpa [mains_pred, promote_update] using hfe
            have ht : t = team := hts.1 ▸ hbp.2
            subst ht
            obtain ⟨-, rfl⟩ := hts
            omega
          · intro hfe
            simp [mains_pred, promote_update] at hfe

theorem good_state_delete (ev : EventRow) (r : List RosterRow) (uid : Nat)
    (hg : good_state ev r) : good_state ev (delete_user r uid) :=
  ⟨hg.1, hg.2.1, users_unique_delete uid hg.2.2.1, capacity_invariant_delete ev r uid hg.2.2.2⟩

theorem good_state_leave (ev : EventRow) (r : List RosterRow) (uid : Nat)
    (hg : good_state ev r) : good_state ev (leave_op ev r uid).2 := by
  unfold leave_op
  split
  · exact hg
  · next prior hprior =>
      dsimp only
      split
      · exact good_state_promote ev _ prior.team _ (good_state_delete ev r uid hg)
      · exact good_state_delete ev r uid hg

theorem good_state_setcommander_apply (ev : EventRow) (r : List RosterRow) (uid : Nat)
    (team squad : String) (now : Int)
    (hg : good_state ev r)
    (hq : squad = "SA" ∨ squad = "SB" →
      (count_mains r team (some squad) true false : Int) < squad_commander_quota ev squad) :
    good_state ev (setcommander_apply ev r uid team squad now).2 := by
  obtain ⟨hqa, hqb, hu, hcap⟩ := hg
  unfold setcommander_apply
  split
  · next existing hex =>
      obtain ⟨hmem, huid⟩ := user_enrollment_mem hex
      split
      · exact ⟨hqa, hqb, hu, hcap⟩
      · next hback =>
          split
          · rw [← huid]
            refine ⟨hqa, hqb, users_unique_update _ _ (fun x => rfl) hu,
              capacity_invariant_update ev r existing _ hu hmem hcap ?_⟩
            intro t s hs
            constructor
            · intro hfe
              simp [mains_pred] at hfe
            · intro hfe
              right
              have hts : existing.team = t ∧ squad = s := by
                simpa [mains_pred] using hfe
              have hteam : existing.team = team := by
                simpa using hback
              have ht : t = team := hts.1 ▸ hteam
              subst ht
              obtain ⟨-, rfl⟩ := hts
              have := hq hs
              omega
          · split
            · exact ⟨hqa, hqb, hu, hcap⟩
            · rw [← huid]
              refine ⟨hqa, hqb, users_unique_update _ _ (fun x => rfl) hu,
                capacity_invariant_update ev r existing _ hu hmem hcap ?_⟩
              intro t s hs
              constructor
              · intro hfe
                simp [mains_pred] at hfe
              · intro hfe
                right
                have hts : existing.slot_type = "main" ∧ existing.team = t ∧ squad = s := by
                  simpa [mains_pred, and_assoc] using hfe
                have hteam : existing.team = team := by
                  simpa using hback
                have ht : t = team := hts.2.1 ▸ hteam
                subst ht
                obtain ⟨-, -, rfl⟩ := hts
                have := hq hs
                omega
  · next hex =>
      exact good_state_append_commander ev r uid team squad now ⟨hqa, hqb, hu, hcap⟩ hq
        (user_enrollment_none hex)

theorem good_state_setcommander (ev : EventRow) (r : List RosterRow) (uid : Nat)
    (team squad : String) (now : Int) (hg : good_state ev r) :
    good_state ev (event_setcommander ev r uid team squad now).2 := by
  unfold event_setcommander
  dsimp only
  split
  · next hsa =>
      have hsq : squad = "SA" := by simpa using hsa
      split
      · exact hg
      · next hquota =>
          split
          · exact hg
          · apply good_state_setcommander_apply ev r uid team squad now hg
            intro _
            subst hsq
            simp only [get_team_counts, not_le] at hquota
            simpa [squad_commander_quota] using hquota
  · next hsa =>
      have hsq : squad ≠ "SA" := by simpa using hsa
      split
      · exact hg
      · next hquota =>
          split
          · exact hg
          · apply good_state_setcommander_apply ev r uid team squad now hg
            intro hs
            rcases hs with rfl | rfl
            · exact absurd rfl hsq
            · simp only [get_team_counts, not_le] at hquota
              simpa [squad_commander_quota] using hquota

theorem good_state_unsetcommander (ev : EventRow) (r : List RosterRow) (uid : Nat)
    (team : String) (demote : Bool) (hg : good_state ev r) :
    good_state ev (event_unsetcommander ev r uid team demote).2 := by
  obtain ⟨hqa, hqb, hu, hcap⟩ := hg
  unfold event_unsetcommander
  split
  · exact ⟨hqa, hqb, hu, hcap⟩
  · next existing hex =>
      obtain ⟨hmem, huid⟩ := user_enrollment_mem hex
      split
      · exact ⟨hqa, hqb, hu, hcap⟩
      · next hcond =>
          have hcond' : existing.team = team ∧ existing.is_commander = 1 ∧
              existing.slot_type = "main" := by
            simpa [not_or, and_assoc] using hcond
          obtain ⟨hteam, hcmd, hslot⟩ := hcond'
          dsimp only
          split
          · next hfits =>
              rw [← huid]
              refine ⟨hqa, hqb, users_unique_update _ _ (fun x => rfl) hu,
                capacity_invariant_update ev r existing _ hu hmem hcap ?_⟩
              intro t s hs
              constructor
              · intro hfe
                right
                have hts : existing.slot_type = "main" ∧ existing.team = t ∧
                    existing.squad = some s := by
                  simpa [mains_pred, and_assoc] using hfe
                have hsvar : py_or_str existing.squad "SA" = s := by
                  rw [hts.2.2]
                  rcases hs with rfl | rfl <;> simp [py_or_str]
                have ht : t = team := hts.2.1 ▸ hteam
                subst ht
                rw [hsvar] at hfits
                exact hfits
              · intro hfe
                simp [mains_pred] at hfe
          · split
            · split
              · rw [← huid]
                refine ⟨hqa, hqb, users_unique_update _ _ (fun x => rfl) hu,
                  capacity_invariant_update ev r existing _ hu hmem hcap ?_⟩
                intro t s hs
                constructor <;> intro hfe <;> simp [mains_pred] at hfe
              · exact ⟨hqa, hqb, hu, hcap⟩
            · exact ⟨hqa, hqb, hu, hcap⟩

theorem good_state_apply_op (ev : EventRow) (r : List RosterRow) (op : Op)
    (hg : good_state ev r) :
    good_state (apply_op ev r op).1 (apply_op ev r op).2 := by
  cases op with
  | joinReq uid team squad fb now =>
      exact good_state_add_participant ev r uid team squad fb now hg
  | leaveReq uid => exact good_state_leave ev r uid hg
  | promoteReq team squad => exact good_state_promote ev r team squad hg
  | setCommanderReq uid team squad now =>
      exact good_state_setcommander ev r uid team squad now hg
  | unsetCommanderReq uid team demote =>
      exact good_state_unsetcommander ev r uid team demote hg
  | lockReq => exact hg
  | unlockReq => exact hg
  | resetReq =>
      simp only [apply_op, reset_event_roster]
      refine ⟨hg.1, hg.2.1, users_unique_nil, ?_⟩
      intro t s hs
      rcases hs with rfl | rfl
      · constructor
        · simp only [count_mains, List.countP_nil, Nat.cast_zero]
          simp [non_commander_cap]
        · simp only [count_mains, List.countP_nil, Nat.cast_zero]
          simpa [squad_commander_quota] using hg.1
      · constructor
        · simp only [count_mains, List.countP_nil, Nat.cast_zero]
          simp [non_commander_cap]
        · simp only [count_mains, List.countP_nil, Nat.cast_zero]
          simpa [squad_commander_quota] using hg.2.1

theorem good_state_run_ops (ops : List Op) :
    ∀ (ev : EventRow) (r : List RosterRow), good_state ev r →
      good_state (run_ops ev r ops).1 (run_ops ev r ops).2 := by
  induction ops with
  | nil => intro ev r hg; exact hg
  | cons op ops ih =>
      intro ev r hg
      have hstep := good_state_apply_op ev r op hg
      have hrw : run_ops ev r (op :: ops)
          = run_ops (apply_op ev r op).1 (apply_op ev r op).2 ops := by
        simp [run_ops, List.foldl_cons]
      rw [hrw]
      exact ih _ _ hstep

/- Uniqueness-only preservation (no capacity hypotheses needed). -/

theorem users_unique_add_participant (ev : EventRow) (r : List RosterRow) (uid : Nat)
    (team : String) (squad : Option String) (fb : Bool) (now : Int)
    (hu : users_unique r) :
    users_unique (add_participant ev r uid team squad fb now).2 := by
  unfold add_participant
  split
  · exact hu
  · split
    · split <;> exact hu
    · next hnone =>
        have hnotin := user_enrollment_none hnone
        have happ : ∀ row : RosterRow, row.user_id = uid → users_unique (r ++ [row]) := by
          intro row hrow
          exact users_unique_append hu (fun x hx => hrow ▸ hnotin x hx)
        dsimp only
        split
        · split
          · exact happ _ rfl
          · exact hu
        · split
          · next sq =>
              split
              · split
                · exact happ _ rfl
                · split
                  · exact happ _ rfl
                  · exact hu
              · unfold add_auto_join
                split
                · exact happ _ rfl
                · split
                  · exact happ _ rfl
                  · split
                    · exact happ _ rfl
                    · exact hu
          · unfold add_auto_join
            split
            · exact happ _ rfl
            · split
              · exact happ _ rfl
              · split
                · exact happ _ rfl
                · exact hu

theorem users_unique_promote (ev : EventRow) (r : List RosterRow) (team squad : String)
    (hu : users_unique r) :
    users_unique (promote_one_non_commander ev r team squad).2 := by
  unfold promote_one_non_commander
  split
  · exact hu
  · split
    · exact hu
    · exact users_unique_update _ _ (fun x => rfl) hu

theorem users_unique_leave (ev : EventRow) (r : List RosterRow) (uid : Nat)
    (hu : users_unique r) : users_unique (leave_op ev r uid).2 := by
  unfold leave_op
  split
  · exact hu
  · dsimp only
    split
    · exact users_unique_promote _ _ _ _ (users_unique_delete _ hu)
    · exact users_unique_delete _ hu

theorem users_unique_setcommander_apply (ev : EventRow) (r : List RosterRow) (uid : Nat)
    (team squad : String) (now : Int) (hu : users_unique r) :
    users_unique (setcommander_apply ev r uid team squad now).2 := by
  unfold setcommander_apply
  split
  · split
    · exact hu
    · split
      · exact users_unique_update _ _ (fun x => rfl) hu
      · split
        · exact hu
        · exact users_unique_update _ _ (fun x => rfl) hu
  · next hex =>
      exact users_unique_append hu (fun x hx => user_enrollment_none hex x hx)

theorem users_unique_setcommander (ev : EventRow) (r : List RosterRow) (uid : Nat)
    (team squad : String) (now : Int) (hu : users_unique r) :
    users_unique (event_setcommander ev r uid team squad now).2 := by
  unfold event_setcommander
  dsimp only
  split
  · split
    · exact hu
    · split
      · exact hu
      · exact users_unique_setcommander_apply _ _ _ _ _ _ hu
  · split
    · exact hu
    · split
      · exact hu
      · exact users_unique_setcommander_apply _ _ _ _ _ _ hu

theorem users_unique_unsetcommander (ev : EventRow) (r : List RosterRow) (uid : Nat)
    (team : String) (demote : Bool) (hu : users_unique r) :
    users_unique (event_unsetcommander ev r uid team demote).2 := by
  unfold event_unsetcommander
  split
  · exact hu
  · split
    · exact hu
    · dsimp only
      split
      · exact users_unique_update _ _ (fun x => rfl) hu
      · split
        · split
          · exact users_unique_update _ _ (fun x => rfl) hu
          · exact hu
        · exact hu

theorem users_unique_apply_op (ev : EventRow) (r : List RosterRow) (op : Op)
    (hu : users_unique r) : users_unique (apply_op ev r op).2 := by
  cases op with
  | joinReq uid team squad fb now => exact users_unique_add_participant ev r uid team squad fb now hu
  | leaveReq uid => exact users_unique_leave ev r uid hu
  | promoteReq team squad => exact users_unique_promote ev r team squad hu
  | setCommanderReq uid team squad now => exact users_unique_setcommander ev r uid team squad now hu
  | unsetCommanderReq uid team demote => exact users_unique_unsetcommander ev r uid team demote hu
  | lockReq => exact hu
  | unlockReq => exact hu
  | resetReq => exact users_unique_nil

theorem users_unique_run_ops (ops : List Op) :
    ∀ (ev : EventRow) (r : List RosterRow), users_unique r →
      users_unique (run_ops ev r ops).2 := by
  induction ops with
  | nil => intro ev r hu; exact hu
  | cons op ops ih =>
      intro ev r hu
      have hrw : run_ops ev r (op :: ops)
          = run_ops (apply_op ev r op).1 (apply_op ev r op).2 ops := by
        simp [run_ops, List.foldl_cons]
      rw [hrw]
      exact ih _ _ (users_unique_apply_op ev r op hu)

theorem add_participant_enrolled_no_insert (ev : EventRow) (r : List RosterRow)
    (uid : Nat) (team : String) (squad : Option String) (fb : Bool) (now : Int)
    (h : user_enrollment r uid ≠ none) :
    (add_participant ev r uid team squad fb now).2 = r := by
  unfold add_participant
  split
  · rfl
  · split
    · split <;> rfl
    · next hnone => exact absurd hnone h

/- Lookup lemmas used to describe promotions and removals. -/

theorem mem_update_user_of_ne (r : List RosterRow) (uid : Nat) (f : RosterRow → RosterRow)
    (b : RosterRow) (hb : b ∈ r) (hne : b.user_id ≠ uid) : b ∈ update_user r uid f := by
  unfold update_user
  have hbeq : (if b.user_id == uid then f b else b) = b := by simp [hne]
  exact hbeq ▸ List.mem_map_of_mem _ hb

theorem user_enrollment_update_self (f : RosterRow → RosterRow)
    (hf : ∀ x, (f x).user_id = x.user_id) :
    ∀ (r : List RosterRow) (e : RosterRow), users_unique r → e ∈ r →
      user_enrollment (update_user r e.user_id f) e.user_id = some (f e) := by
  intro r
  induction r with
  | nil => intro e _ he; cases he
  | cons x t ih =>
      intro e hu he
      have hu' : x.user_id ∉ t.map RosterRow.user_id ∧ users_unique t := by
        simpa [users_unique, List.nodup_cons] using hu
      rcases List.mem_cons.mp he with rfl | het
      · have hhead : update_user (e :: t) e.user_id f
            = f e :: update_user t e.user_id f := by
          simp [update_user]
        rw [hhead]
        unfold user_enrollment
        rw [List.find?_cons_of_pos]
        simp [hf]
      · have hne : x.user_id ≠ e.user_id := by
          intro hx
          exact hu'.1 (hx ▸ List.mem_map_of_mem RosterRow.user_id het)
        have hhead : update_user (x :: t) e.user_id f
            = x :: update_user t e.user_id f := by
          simp [update_user, hne]
        rw [hhead]
        unfold user_enrollment
        rw [List.find?_cons_of_neg]
        · exact ih e hu'.2 het
        · simp [hne]

theorem user_enrollment_delete_self (r : List RosterRow) (uid : Nat) :
    user_enrollment (delete_user r uid) uid = none := by
  apply List.find?_eq_none.mpr
  intro x hx
  have hmem := List.of_mem_filter hx
  simpa using hmem

theorem user_enrollment_update_none (l : List RosterRow) (u : Nat)
    (f : RosterRow → RosterRow) (uid : Nat)
    (hf : ∀ x, (f x).user_id = x.user_id)
    (h : user_enrollment l uid = none) :
    user_enrollment (update_user l u f) uid = none := by
  apply List.find?_eq_none.mpr
  intro x hx
  unfold update_user at hx
  obtain ⟨y, hy, hyx⟩ := List.mem_map.mp hx
  have hyid := user_enrollment_none h y hy
  subst hyx
  by_cases hc : y.user_id = u
  · simp [hc, hf]
    exact fun h' => hyid (hc ▸ h' ▸ rfl)
  · simp [hc, hyid]

theorem user_enrollment_promote_none (ev : EventRow) (l : List RosterRow)
    (team squad : String) (uid : Nat)
    (h : user_enrollment l uid = none) :
    user_enrollment (promote_one_non_commander ev l team squad).2 uid = none := by
  unfold promote_one_non_commander
  split
  · exact h
  · split
    · exact h
    · exact user_enrollment_update_none _ _ _ _ (fun x => rfl) h

theorem foldl_promote_step_some :
    ∀ (l : List RosterRow) (b : RosterRow), l.foldl promote_step (some b) ≠ none := by
  intro l
  induction l with
  | nil => intro b h; cases h
  | cons x t ih =>
      intro b
      show t.foldl promote_step (promote_step (some b) x) ≠ none
      by_cases hlt : x.joined_at < b.joined_at <;> simp [promote_step, hlt] <;> apply ih

theorem min_backup_exists {r : List RosterRow} {team : String} {b : RosterRow}
    (hb : b ∈ r) (hpred : backup_pred team b = true) :
    min_backup r team ≠ none := by
  unfold min_backup
  have hmem : b ∈ r.filter (backup_pred team) := List.mem_filter.mpr ⟨hb, hpred⟩
  cases hfil : r.filter (backup_pred team) with
  | nil => rw [hfil] at hmem; cases hmem
  | cons x t =>
      show (x :: t).foldl promote_step none ≠ none
      exact foldl_promote_step_some t x

/- Characterization of the join decision chain, shared by several
claims. -/

theorem add_participant_auto_spec (ev : EventRow) (r : List RosterRow) (uid : Nat)
    (team : String) (now : Int)
    (hopen : ev.status = "open") (hnone : user_enrollment r uid = none) :
    (can_join_non_cmd ev r team "SA" = true →
      add_participant ev r uid team none false now
        = (("main", "joined"), r ++ [new_row uid team (some "SA") "main" now])) ∧
    (can_join_non_cmd ev r team "SA" = false → can_join_non_cmd ev r team "SB" = true →
      add_participant ev r uid team none false now
        = (("main", "joined"), r ++ [new_row uid team (some "SB") "main" now])) ∧
    (can_join_non_cmd ev r team "SA" = false → can_join_non_cmd ev r team "SB" = false →
      (count_backups r team : Int) < ev.backup_size →
      add_participant ev r uid team none false now
        = (("backup", "joined"), r ++ [new_row uid team none "backup" now])) ∧
    (can_join_non_cmd ev r team "SA" = false → can_join_non_cmd ev r team "SB" = false →
      ¬((count_backups r team : Int) < ev.backup_size) →
      add_participant ev r uid team none false now
        = (("", team_label ev team ++ " is full (mains and backups)."), r)) := by
  have hstat : (ev.status != "open") = false := by simp [hopen]
  refine ⟨?_, ?_, ?_, ?_⟩
  · intro hA
    simp [add_participant, hstat, hnone, add_auto_join, hA]
  · intro hA hB
    simp [add_participant, hstat, hnone, add_auto_join, hA, hB]
  · intro hA hB hbk
    simp [add_participant, hstat, hnone, add_auto_join, hA, hB, get_team_counts, hbk]
  · intro hA hB hbk
    simp [add_participant, hstat, hnone, add_auto_join, hA, hB, get_team_counts, hbk]

theorem add_participant_explicit_spec (ev : EventRow) (r : List RosterRow) (uid : Nat)
    (team sq : String) (now : Int)
    (hopen : ev.status = "open") (hnone : user_enrollment r uid = none)
    (hsq : sq = "SA" ∨ sq = "SB") :
    (can_join_non_cmd ev r team sq = true →
      add_participant ev r uid team (some sq) false now
        = (("main", "joined"), r ++ [new_row uid team (some sq) "main" now])) ∧
    (can_join_non_cmd ev r team sq = false →
      (count_backups r team : Int) < ev.backup_size →
      add_participant ev r uid team (some sq) false now
        = (("backup", "joined"), r ++ [new_row uid team none "backup" now])) ∧
    (can_join_non_cmd ev r team sq = false →
      ¬((count_backups r team : Int) < ev.backup_size) →
      add_participant ev r uid team (some sq) false now
        = (("", team_label ev team ++ " is full (chosen squad mains and backups)."), r)) := by
  have hstat : (ev.status != "open") = false := by simp [hopen]
  have hsq' : (sq == "SA" || sq == "SB") = true := by
    rcases hsq with rfl | rfl <;> simp
  refine ⟨?_, ?_, ?_⟩
  · intro hcan
    simp [add_participant, hstat, hnone, hsq', hcan]
  · intro hcan hbk
    simp [add_participant, hstat, hnone, hsq', hcan, get_team_counts, hbk]
  · intro hcan hbk
    simp [add_participant, hstat, hnone, hsq', hcan, get_team_counts, hbk]

/- ------------------------------------------------------------------ -/
/- Claim theorems                                                      -/
/- ------------------------------------------------------------------ -/

/-- C1: starting from an empty roster of an event whose configured sizes
and quotas are nonnegative, after every sequence of completed operations
(Join, Leave, PromoteFIFO, AssignCommander, UnassignCommander, Reset,
plus lock/unlock), for every team and every squad the number of
non-commander main entries is at most `non_commander_cap` and the number
of commander entries is at most the squad's commander quota. -/
theorem C1_capacity_invariant (ev0 : EventRow) (ops : List Op)
    (_hsa : 0 ≤ ev0.squad_a_size) (_hsb : 0 ≤ ev0.squad_b_size)
    (hqa : 0 ≤ ev0.squad_a_commander_quota) (hqb : 0 ≤ ev0.squad_b_commander_quota)
    (_hbk : 0 ≤ ev0.backup_size) :
    capacity_invariant (run_ops ev0 [] ops).1 (run_ops ev0 [] ops).2 := by
  have hinit : good_state ev0 [] := by
    refine ⟨hqa, hqb, users_unique_nil, ?_⟩
    intro t s hs
    rcases hs with rfl | rfl
    · constructor
      · simp only [count_mains, List.countP_nil, Nat.cast_zero]
        simp [non_commander_cap]
      · simp only [count_mains, List.countP_nil, Nat.cast_zero]
        simpa [squad_commander_quota] using hqa
    · constructor
      · simp only [count_mains, List.countP_nil, Nat.cast_zero]
        simp [non_commander_cap]
      · simp only [count_mains, List.countP_nil, Nat.cast_zero]
        simpa [squad_commander_quota] using hqb
  exact (good_state_run_ops ops ev0 [] hinit).2.2.2

/-- Witness for C1 at a concrete configuration and operation sequence. -/
theorem C1_capacity_invariant_witness :
    ((0:Int) ≤ sample_event.squad_a_size ∧ (0:Int) ≤ sample_event.squad_b_size ∧
      (0:Int) ≤ sample_event.squad_a_commander_quota ∧
      (0:Int) ≤ sample_event.squad_b_commander_quota ∧
      (0:Int) ≤ sample_event.backup_size) ∧
    capacity_invariant (run_ops sample_event [] sample_ops).1
      (run_ops sample_event [] sample_ops).2 :=
  ⟨⟨by decide, by decide, by decide, by decide, by decide⟩,
   C1_capacity_invariant sample_event sample_ops (by decide) (by decide) (by decide)
     (by decide) (by decide)⟩

/-- C2: starting from an empty roster, after every sequence of completed
operations at most one roster row exists per user; moreover a Join
request by a user who already holds an entry in the event (on either
team) performs no insert. -/
theorem C2_uniqueness (ev0 : EventRow) (ops : List Op) :
    users_unique (run_ops ev0 [] ops).2 ∧
    (∀ (ev : EventRow) (r : List RosterRow) (uid : Nat) (team : String)
        (squad : Option String) (fb : Bool) (now : Int),
      user_enrollment r uid ≠ none →
      (add_participant ev r uid team squad fb now).2 = r) := by
  constructor
  · exact users_unique_run_ops ops ev0 [] users_unique_nil
  · intro ev r uid team squad fb now h
    exact add_participant_enrolled_no_insert ev r uid team squad fb now h

/-- Witness for C2: the sample run keeps user ids unique, and a join by
the already-enrolled user 1 inserts nothing. -/
theorem C2_uniqueness_witness :
    users_unique (run_ops sample_event [] sample_ops).2 ∧
    (add_participant sample_event sample_roster 1 "B" none false 5).2 = sample_roster :=
  ⟨(C2_uniqueness sample_event sample_ops).1,
   (C2_uniqueness sample_event sample_ops).2 sample_event sample_roster 1 "B" none false 5
     (by decide)⟩

/-- C3: PromoteFIFO is a no-op returning none when the squad's
non-commander main count is at or above `non_commander_cap` or the team
has no backups; otherwise it promotes exactly the team backup (backups
are team-scoped) with the smallest joined_at, mutating that single entry
to a non-commander main of the squad and leaving every other entry
unchanged, and returns that user — so with backups B1 (joined_at 100)
and B2 (joined_at 200), B1 and never B2 is promoted. -/
theorem C3_promote_fifo (ev : EventRow) (r : List RosterRow) (team squad : String)
    (hu : users_unique r) :
    ((count_mains r team (some squad) false true : Int) ≥ non_commander_cap ev squad →
      promote_one_non_commander ev r team squad = (none, r)) ∧
    ((∀ b ∈ r, backup_pred team b = false) →
      promote_one_non_commander ev r team squad = (none, r)) ∧
    ((count_mains r team (some squad) false true : Int) < non_commander_cap ev squad →
      ∀ e, min_backup r team = some e →
        promote_one_non_commander ev r team squad
          = (some e.user_id, update_user r e.user_id (promote_update squad)) ∧
        e ∈ r ∧ e.slot_type = "backup" ∧ e.team = team ∧
        (∀ b ∈ r, b.slot_type = "backup" → b.team = team →
          e.joined_at ≤ b.joined_at) ∧
        (∀ b ∈ r, b.user_id ≠ e.user_id →
          b ∈ (promote_one_non_commander ev r team squad).2) ∧
        user_enrollment (promote_one_non_commander ev r team squad).2 e.user_id
          = some (promote_update squad e) ∧
        (promote_one_non_commander ev r team squad).2.length = r.length) ∧
    ((count_mains r team (some squad) false true : Int) < non_commander_cap ev squad →
      (∃ b ∈ r, backup_pred team b = true) →
      min_backup r team ≠ none) ∧
    ((promote_one_non_commander fifo_event fifo_roster "A" "SA").1 = some 1 ∧
      (promote_one_non_commander fifo_event fifo_roster "A" "SA").1 ≠ some 2) := by
  refine ⟨?_, ?_, ?_, ?_, by decide, by decide⟩
  · intro hge
    unfold promote_one_non_commander
    rw [if_pos hge]
  · intro hnob
    unfold promote_one_non_commander
    split
    · rfl
    · rw [min_backup_eq_none hnob]
  · intro hlt e hsel
    have hresult : promote_one_non_commander ev r team squad
        = (some e.user_id, update_user r e.user_id (promote_update squad)) := by
      unfold promote_one_non_commander
      rw [if_neg (by omega), hsel]
    obtain ⟨hmem, hpred⟩ := min_backup_mem hsel
    have hbp : e.slot_type = "backup" ∧ e.team = team := by
      simpa [backup_pred] using hpred
    refine ⟨hresult, hmem, hbp.1, hbp.2, ?_, ?_, ?_, ?_⟩
    · intro b hb hslot hteam
      exact min_backup_min hsel b hb (by simp [backup_pred, hslot, hteam])
    · intro b hb hne
      rw [hresult]
      exact mem_update_user_of_ne r e.user_id (promote_update squad) b hb hne
    · rw [hresult]
      exact user_enrollment_update_self (promote_update squad) (fun x => rfl) r e hu hmem
    · rw [hresult]
      simp [update_user]
  · intro _ hex
    obtain ⟨b, hb, hpred⟩ := hex
    exact min_backup_exists hb hpred

/-- Witness for C3 on the concrete FIFO scenario: the earliest backup
B1 is the one promoted. -/
theorem C3_promote_fifo_witness :
    (promote_one_non_commander fifo_event fifo_roster "A" "SA").1 = some 1 ∧
    (promote_one_non_commander fifo_event fifo_roster "A" "SA").1 ≠ some 2 :=
  (C3_promote_fifo fifo_event fifo_roster "A" "SA"
    (by show (fifo_roster.map RosterRow.user_id).Nodup; decide)).2.2.2.2

/-- C4: for an open event and a Join with no squad preference and no
forced backup by a user with no existing entry, the engine tries Squad A
non-commander capacity, then Squad B, then the team backup pool, in that
fixed order; in particular when Squad A is full and Squad B has spare
non-commander capacity the user is assigned main in Squad B, never
backup. -/
theorem C4_auto_placement_order (ev : EventRow) (r : List RosterRow) (uid : Nat)
    (team : String) (now : Int)
    (hopen : ev.status = "open") (hnone : user_enrollment r uid = none) :
    (can_join_non_cmd ev r team "SA" = true →
      add_participant ev r uid team none false now
        = (("main", "joined"), r ++ [new_row uid team (some "SA") "main" now])) ∧
    (can_join_non_cmd ev r team "SA" = false → can_join_non_cmd ev r team "SB" = true →
      add_participant ev r uid team none false now
        = (("main", "joined"), r ++ [new_row uid team (some "SB") "main" now])) ∧
    (can_join_non_cmd ev r team "SA" = false → can_join_non_cmd ev r team "SB" = false →
      (count_backups r team : Int) < ev.backup_size →
      add_participant ev r uid team none false now
        = (("backup", "joined"), r ++ [new_row uid team none "backup" now])) ∧
    (can_join_non_cmd ev r team "SA" = false → can_join_non_cmd ev r team "SB" = false →
      ¬((count_backups r team : Int) < ev.backup_size) →
      add_participant ev r uid team none false now
        = (("", team_label ev team ++ " is full (mains and backups)."), r)) :=
  add_participant_auto_spec ev r uid team now hopen hnone

/-- Witness for C4: on `c5_event` with Squad A full (`c5_roster`), the
no-preference join of user 2 lands as a Squad-B main. -/
theorem C4_auto_placement_order_witness :
    add_participant c5_event c5_roster 2 "A" none false 20
      = (("main", "joined"), c5_roster ++ [new_row 2 "A" (some "SB") "main" 20]) :=
  (C4_auto_placement_order c5_event c5_roster 2 "A" 20 rfl (by decide)).2.1
    (by decide) (by decide)

/-- C5 counterexample: in `c5_event`, Squad A is full, Squad B has spare
non-commander capacity, yet an explicit Squad-A join request by the
unenrolled user 2 is placed in the team backup pool — the code never
falls through to the other squad, contradicting the claimed strict
fallback chain. -/
theorem C5_counterexample :
    can_join_non_cmd c5_event c5_roster "A" "SB" = true ∧
    (count_backups c5_roster "A" : Int) < c5_event.backup_size ∧
    (add_participant c5_event c5_roster 2 "A" (some "SA") false 20).1.1 = "backup" ∧
    (add_participant c5_event c5_roster 2 "A" (some "SA") false 20).2
      = c5_roster ++ [new_row 2 "A" none "backup" 20] := by
  refine ⟨by decide, by decide, ?_, ?_⟩ <;> decide

/-- C5 (amended): when the explicitly requested squad's non-commander
capacity is full (open event, user not enrolled, forceBackup false), the
Join falls back directly to the shared team backup pool — inserting a
backup entry when the pool has room and rejecting otherwise — and never
tries the other squad. -/
theorem C5_explicit_squad_fallback (ev : EventRow) (r : List RosterRow) (uid : Nat)
    (team sq : String) (now : Int)
    (hopen : ev.status = "open") (hnone : user_enrollment r uid = none)
    (hsq : sq = "SA" ∨ sq = "SB")
    (hfull : can_join_non_cmd ev r team sq = false) :
    ((count_backups r team : Int) < ev.backup_size →
      add_participant ev r uid team (some sq) false now
        = (("backup", "joined"), r ++ [new_row uid team none "backup" now])) ∧
    (¬((count_backups r team : Int) < ev.backup_size) →
      add_participant ev r uid team (some sq) false now
        = (("", team_label ev team ++ " is full (chosen squad mains and backups)."), r)) := by
  have h := add_participant_explicit_spec ev r uid team sq now hopen hnone hsq
  exact ⟨h.2.1 hfull, h.2.2 hfull⟩

/-- Witness for C5's amended statement on the concrete scenario. -/
theorem C5_explicit_squad_fallback_witness :
    add_participant c5_event c5_roster 2 "A" (some "SA") false 20
      = (("backup", "joined"), c5_roster ++ [new_row 2 "A" none "backup" 20]) :=
  (C5_explicit_squad_fallback c5_event c5_roster 2 "A" "SA" 20 rfl (by decide)
    (Or.inl rfl) (by decide)).1 (by decide)

/-- C6: against an event whose status is not 'open', every Join request
(including forced-backup joins) is rejected with the locked message and
the roster is unchanged, while Leave still removes the caller's entry
(with its automatic promotion) and PromoteFIFO behaves exactly as on an
open event — neither reads the status. -/
theorem C6_lock_gating (ev : EventRow) (r : List RosterRow)
    (hlocked : ev.status ≠ "open") :
    (∀ (uid : Nat) (team : String) (squad : Option String) (fb : Bool) (now : Int),
      add_participant ev r uid team squad fb now
        = (("", "This event is currently locked. Ask a manager to /event_unlock."), r)) ∧
    (∀ uid : Nat, leave_op ev r uid = leave_op { ev with status := "open" } r uid) ∧
    (∀ (uid : Nat) (prior : RosterRow), user_enrollment r uid = some prior →
      (leave_op ev r uid).1.1 = some prior ∧
      user_enrollment (leave_op ev r uid).2 uid = none) ∧
    (∀ team squad : String, promote_one_non_commander ev r team squad
      = promote_one_non_commander { ev with status := "open" } r team squad) := by
  have hstat : (ev.status != "open") = true := by simpa using hlocked
  refine ⟨?_, ?_, ?_, ?_⟩
  · intro uid team squad fb now
    unfold add_participant
    rw [if_pos hstat]
  · intro uid
    rfl
  · intro uid prior hprior
    unfold leave_op
    rw [hprior]
    dsimp only
    constructor
    · split <;> rfl
    · split
      · exact user_enrollment_promote_none ev (delete_user r uid) prior.team
          (prior.squad.getD "SA") uid (user_enrollment_delete_self r uid)
      · exact user_enrollment_delete_self r uid
  · intro team squad
    rfl

/-- Witness for C6: joining the locked event is rejected and user 1's
leave still removes their entry. -/
theorem C6_lock_gating_witness :
    (add_participant locked_event sample_roster 9 "A" none true 3
      = (("", "This event is currently locked. Ask a manager to /event_unlock."),
         sample_roster)) ∧
    user_enrollment (leave_op locked_event sample_roster 1).2 1 = none :=
  ⟨(C6_lock_gating locked_event sample_roster (by decide)).1 9 "A" none true 3,
   ((C6_lock_gating locked_event sample_roster (by decide)).2.2.1 1
     { user_id := 1, team := "A", squad := some "SA", slot_type := "main",
       is_commander := 0, joined_at := 50 } (by decide)).2⟩

/-- C7: when Leave removes an existing entry, the promotion engine is
invoked on the removed entry's team and squad exactly when the removed
entry was a non-commander main with a squad set; removing a commander or
a backup triggers no promotion, and the Leave result carries the promoted
user when a promotion occurred. -/
theorem C7_leave_promotion (ev : EventRow) (r : List RosterRow) (uid : Nat)
    (prior : RosterRow) (h : user_enrollment r uid = some prior) :
    (leave_triggers_promotion prior = true →
      leave_op ev r uid
        = ((some prior,
            (promote_one_non_commander ev (delete_user r uid) prior.team
              (prior.squad.getD "SA")).1),
           (promote_one_non_commander ev (delete_user r uid) prior.team
              (prior.squad.getD "SA")).2)) ∧
    (leave_triggers_promotion prior = false →
      leave_op ev r uid = ((some prior, none), delete_user r uid)) ∧
    (∀ u : Nat, (leave_op ev r uid).1.2 = some u →
      leave_triggers_promotion prior = true) ∧
    (leave_triggers_promotion prior
      = (prior.slot_type == "main" && prior.is_commander == 0 &&
         (prior.squad == some "SA" || prior.squad == some "SB"))) := by
  refine ⟨?_, ?_, ?_, rfl⟩
  · intro hc
    unfold leave_op
    rw [h]
    dsimp only
    rw [if_pos hc]
  · intro hc
    unfold leave_op
    rw [h]
    dsimp only
    rw [if_neg (by simp [hc])]
  · intro u hu
    cases hc : leave_triggers_promotion prior
    · exfalso
      have h2 : leave_op ev r uid = ((some prior, none), delete_user r uid) := by
        unfold leave_op
        rw [h]
        dsimp only
        rw [if_neg (by simp [hc])]
      rw [h2] at hu
      cases hu
    · rfl

/-- Witness for C7: user 1 is a non-commander Squad-A main, so their
leave runs the promotion engine on (team A, Squad A). -/
theorem C7_leave_promotion_witness :
    leave_triggers_promotion c7_prior = true ∧
    leave_op c5_event c7_roster 1
      = ((some c7_prior,
          (promote_one_non_commander c5_event (delete_user c7_roster 1) c7_prior.team
            (c7_prior.squad.getD "SA")).1),
         (promote_one_non_commander c5_event (delete_user c7_roster 1) c7_prior.team
            (c7_prior.squad.getD "SA")).2) :=
  ⟨by decide,
   (C7_leave_promotion c5_event c7_roster 1 c7_prior (by decide)).1 (by decide)⟩

/-- C8: when the requested squad's commander count is already at its
quota, AssignCommander rejects with the quota message and mutates
nothing — regardless of occupancy, showing the quota check runs first —
and when the quota check passes but the squad's total occupancy
(commanders plus mains) is at the squad size it rejects with the
occupancy message, again without mutation. -/
theorem C8_setcommander_quota_first (ev : EventRow) (r : List RosterRow) (uid : Nat)
    (team : String) (now : Int) :
    ((count_mains r team (some "SA") true false : Int) ≥ ev.squad_a_commander_quota →
      event_setcommander ev r uid team "SA" now
        = (.reject (setcmd_quota_msg_a ev team), r)) ∧
    ((count_mains r team (some "SB") true false : Int) ≥ ev.squad_b_commander_quota →
      event_setcommander ev r uid team "SB" now
        = (.reject (setcmd_quota_msg_b ev team), r)) ∧
    ((count_mains r team (some "SA") true false : Int) < ev.squad_a_commander_quota →
      (count_mains r team (some "SA") true false : Int)
          + (count_mains r team (some "SA") false true : Int) ≥ ev.squad_a_size →
      event_setcommander ev r uid team "SA" now
        = (.reject (setcmd_full_msg_a ev team), r)) ∧
    ((count_mains r team (some "SB") true false : Int) < ev.squad_b_commander_quota →
      (count_mains r team (some "SB") true false : Int)
          + (count_mains r team (some "SB") false true : Int) ≥ ev.squad_b_size →
      event_setcommander ev r uid team "SB" now
        = (.reject (setcmd_full_msg_b ev team), r)) := by
  refine ⟨?_, ?_, ?_, ?_⟩
  · intro hq
    unfold event_setcommander
    simp only [get_team_counts]
    rw [if_pos (by decide), if_pos hq]
  · intro hq
    unfold event_setcommander
    simp only [get_team_counts]
    rw [if_neg (by decide), if_pos hq]
  · intro hq hocc
    unfold event_setcommander
    simp only [get_team_counts]
    rw [if_pos (by decide), if_neg (not_le.mpr hq), if_pos hocc]
  · intro hq hocc
    unfold event_setcommander
    simp only [get_team_counts]
    rw [if_neg (by decide), if_neg (not_le.mpr hq), if_pos hocc]

/-- Witness for C8: `c5_event` has commander quota 0 in Squad A, so
assigning a commander is rejected with the quota message and the roster
is untouched. -/
theorem C8_setcommander_quota_first_witness :
    event_setcommander c5_event c5_roster 7 "A" "SA" 99
      = (.reject (setcmd_quota_msg_a c5_event "A"), c5_roster) :=
  (C8_setcommander_quota_first c5_event c5_roster 7 "A" 99).1 (by decide)

/-- C9: UnassignCommander rejects without mutation unless the target is a
main commander on the team; if clearing the flag keeps the squad's
non-commander main count within `non_commander_cap` it clears only the
flag in place; otherwise with demote_if_needed set and backup room it
converts the entry to a backup (squad cleared, flag cleared), and in the
remaining cases it rejects with a capacity-conflict message leaving the
store unchanged. -/
theorem C9_unsetcommander_postcondition (ev : EventRow) (r : List RosterRow) (uid : Nat)
    (team : String) (demote : Bool) :
    ((∀ e, user_enrollment r uid = some e →
        ¬(e.team = team ∧ e.is_commander = 1 ∧ e.slot_type = "main")) →
      event_unsetcommander ev r uid team demote
        = (.reject ("User is not a main commander on " ++ team_label ev team ++ "."), r)) ∧
    (∀ e, user_enrollment r uid = some e →
      e.team = team → e.is_commander = 1 → e.slot_type = "main" →
      (((count_mains r team (some (py_or_str e.squad "SA")) false true : Int) + 1
          ≤ non_commander_cap ev (py_or_str e.squad "SA") →
        event_unsetcommander ev r uid team demote
          = (.ok ("Unset commander: User is now a normal main on " ++ team_label ev team ++
              " — " ++ squad_display (py_or_str e.squad "SA") ++ "."),
             update_user r uid (fun x => { x with is_commander := 0 }))) ∧
      (¬((count_mains r team (some (py_or_str e.squad "SA")) false true : Int) + 1
          ≤ non_commander_cap ev (py_or_str e.squad "SA")) →
        (demote = true →
          (((count_backups r team : Int) < ev.backup_size →
            event_unsetcommander ev r uid team demote
              = (.ok ("Unset commander and demoted to backup (squad mains were full) for User on "
                  ++ team_label ev team ++ "."),
                 update_user r uid
                   (fun x => { x with is_commander := 0, squad := none,
                                      slot_type := "backup" }))) ∧
          (¬((count_backups r team : Int) < ev.backup_size) →
            event_unsetcommander ev r uid team demote
              = (.reject ("Cannot unset: squad non-commander mains are full and backups are " ++
                  "also full. Free a slot or disable demote_if_needed."), r)))) ∧
        (demote = false →
          event_unsetcommander ev r uid team demote
            = (.reject ("Cannot unset: squad non-commander mains are full. Enable " ++
                "demote_if_needed or free a main slot."), r))))) := by
  constructor
  · intro hnot
    unfold event_unsetcommander
    split
    · rfl
    · next e hue =>
        split
        · rfl
        · next hcond =>
            exfalso
            exact hnot e hue (by simpa [not_or, and_assoc] using hcond)
  · intro e hue hteam hcmd hslot
    have hcond : ¬((e.team != team || e.is_commander != 1 || e.slot_type != "main") = true) := by
      simp [hteam, hcmd, hslot]
    constructor
    · intro hfits
      unfold event_unsetcommander
      rw [hue]
      dsimp only
      rw [if_neg hcond, if_pos hfits]
    · intro hnofit
      constructor
      · intro hd
        subst hd
        constructor
        · intro hbk
          unfold event_unsetcommander
          rw [hue]
          dsimp only
          rw [if_neg hcond, if_neg hnofit, if_pos rfl, if_pos hbk]
        · intro hbk
          unfold event_unsetcommander
          rw [hue]
          dsimp only
          rw [if_neg hcond, if_neg hnofit, if_pos rfl, if_neg hbk]
      · intro hd
        subst hd
        unfold event_unsetcommander
        rw [hue]
        dsimp only
        rw [if_neg hcond, if_neg hnofit, if_neg (by simp)]

/-- Witness for C9: unsetting the commander flag of user 5 in `c9_roster`
fits within Squad A's capacity, so only the flag is cleared in place. -/
theorem C9_unsetcommander_postcondition_witness :
    event_unsetcommander sample_event c9_roster 5 "A" true
      = (.ok ("Unset commander: User is now a normal main on " ++
          team_label sample_event "A" ++ " — " ++ squad_display "SA" ++ "."),
         update_user c9_roster 5 (fun x => { x with is_commander := 0 })) := by
  have h := ((C9_unsetcommander_postcondition sample_event c9_roster 5 "A" true).2
    { user_id := 5, team := "A", squad := some "SA", slot_type := "main",
      is_commander := 1, joined_at := 10 }
    (by decide) rfl rfl rfl).1 (by decide)
  simpa [py_or_str] using h

/-- C10: the `/join` slash command's squad parameter defaults to "SA", so
an invocation without a squad argument reaches the allocation engine as
an explicit Squad-A request; consequently when Squad A's non-commander
capacity is full the user is placed in the team backup pool (or
rejected) even while Squad B has spare capacity, while the Join button
path (squad=None) lands main in Squad B in the same scenario. -/
theorem C10_join_default_squad (ev : EventRow) (r : List RosterRow) (uid : Nat)
    (team : String) (now : Int)
    (hopen : ev.status = "open") (hnone : user_enrollment r uid = none)
    (hAfull : can_join_non_cmd ev r team "SA" = false)
    (hBopen : can_join_non_cmd ev r team "SB" = true) :
    (join_command ev r uid team join_command_default_squad now
        = add_participant ev r uid team (some "SA") false now) ∧
    ((count_backups r team : Int) < ev.backup_size →
      join_command ev r uid team join_command_default_squad now
        = (("backup", "joined"), r ++ [new_row uid team none "backup" now])) ∧
    (¬((count_backups r team : Int) < ev.backup_size) →
      join_command ev r uid team join_command_default_squad now
        = (("", team_label ev team ++ " is full (chosen squad mains and backups)."), r)) ∧
    (roster_view_join_auto ev r uid team now
        = (("main", "joined"), r ++ [new_row uid team (some "SB") "main" now])) := by
  have hspec := add_participant_explicit_spec ev r uid team "SA" now hopen hnone (Or.inl rfl)
  have hauto := add_participant_auto_spec ev r uid team now hopen hnone
  have hdef : join_command ev r uid team join_command_default_squad now
      = add_participant ev r uid team (some "SA") false now := rfl
  refine ⟨hdef, ?_, ?_, ?_⟩
  · intro hbk
    rw [hdef]
    exact hspec.2.1 hAfull hbk
  · intro hbk
    rw [hdef]
    exact hspec.2.2 hAfull hbk
  · exact hauto.2.1 hAfull hBopen

/-- Witness for C10: in the concrete Squad-A-full scenario the defaulted
slash command books a backup slot while the button path books a Squad-B
main. -/
theorem C10_join_default_squad_witness :
    join_command c5_event c5_roster 2 "A" join_command_default_squad 20
      = (("backup", "joined"), c5_roster ++ [new_row 2 "A" none "backup" 20]) ∧
    roster_view_join_auto c5_event c5_roster 2 "A" 20
      = (("main", "joined"), c5_roster ++ [new_row 2 "A" (some "SB") "main" 20]) :=
  ⟨(C10_join_default_squad c5_event c5_roster 2 "A" 20 rfl (by decide) (by decide)
      (by decide)).2.1 (by decide),
   (C10_join_default_squad c5_event c5_roster 2 "A" 20 rfl (by decide) (by decide)
      (by decide)).2.2.2⟩
